import Mathlib

/-!
# Verification of the geniusrise/databases extraction connectors

Shallow embedding of the `fetch` methods of the connectors cited by the
claims (`dynamodb.py`, `mongodb.py`, `sqlite.py`, `sql_server.py`,
`cosmosdb.py`, `hbase.py`, `athena.py`), and proofs of the spec's
testable properties against them.

Each connector's `fetch` is modelled as a pure function.  External
effects are made explicit:
* the backend's responses are an input (either the concrete data it
  holds, or a finite trace of responses, one per request the loop
  issues; a trace element can be an error, modelling a raised driver
  exception);
* the sink (`self.output.save`) is captured as the ordered list of
  batches handed to it;
* the state store (`self.state.get_state/set_state` keyed by `self.id`)
  is an `Option JobState` threaded in and out;
* `close()` invocations are counted;
* an exception escaping `fetch` itself is a Boolean flag.

Loops that consume one backend response per iteration are total over a
finite response trace; when the trace is too short to let the loop reach
an exit the model returns `none` (the run would have kept polling).
-/

/-- The per-job state dictionary persisted by every connector:
`{"success_count": _, "failure_count": _, "processed_rows": _}`
(called `processed_documents` in `cosmosdb.py`, same role). -/
structure JobState where
  success_count : Nat
  failure_count : Nat
  processed_rows : Nat
deriving DecidableEq

/-- `self.state.get_state(self.id) or {"success_count": 0,
"failure_count": 0, "processed_rows": 0}` — the zero default used by
every connector when no prior state exists. -/
def getOrDefault (s : Option JobState) : JobState :=
  s.getD ⟨0, 0, 0⟩

/-- One DynamoDB `table.scan` response: the `Items` list and the
optional `LastEvaluatedKey` (keys are modelled as start indices into
the table), or a raised driver exception. -/
inductive Resp (α : Type) where
  | ok (items : List α) (lastKey : Option Nat)
  | err
deriving DecidableEq

/-- How the `while True` page loop of `DynamoDB.fetch` exited:
`success k` means a `break` was reached, where `k` is the
`LastEvaluatedKey` of the response the loop stopped on; `raised` means
a response raised and control jumped to the `except` block. -/
inductive LoopExit where
  | success (terminalKey : Option Nat)
  | raised
deriving DecidableEq

/-- Observable outcome of the page loop: exit kind, the
`processed_rows` accumulator, the batches saved to the sink in order,
and the number of `table.scan` calls issued. -/
structure LoopOut (α : Type) where
  exit : LoopExit
  processed : Nat
  writes : List (List α)
  calls : Nat
deriving DecidableEq

/-- The `while True` loop of `DynamoDB.fetch` (dynamodb.py lines
70–89), driven by a finite trace of scan responses:
`items = response.get("Items", [])`; `if not items: break`;
`self.output.save(items)`; `processed_rows += len(items)`;
`last_evaluated_key = response.get("LastEvaluatedKey")`;
`if not last_evaluated_key: break`.  Returns `none` when the trace is
exhausted before the loop exits. -/
def dynamoLoop {α : Type} :
    List (Resp α) → Nat → List (List α) → Nat → Option (LoopOut α)
  | [], _, _, _ => none
  | .err :: _, p, w, c => some ⟨.raised, p, w, c + 1⟩
  | .ok items k :: rest, p, w, c =>
    if items.isEmpty then
      some ⟨.success k, p, w, c + 1⟩
    else
      let p' := p + items.length
      let w' := w ++ [items]
      match k with
      | none => some ⟨.success none, p', w', c + 1⟩
      | some _ => dynamoLoop rest p' w' (c + 1)

/-- Result of one whole `fetch` call: the persisted job state (after
`set_state`), the sink writes, the scan calls issued, and whether an
exception escaped `fetch`. -/
structure RunR (α : Type) where
  finalStore : Option JobState
  writes : List (List α)
  calls : Nat
  raised : Bool
deriving DecidableEq

/-- `DynamoDB.fetch` (dynamodb.py lines 50–114).  `boto3.resource` and
`dynamodb.Table` perform no I/O, so there is no connection-failure
path; every fallible operation happens inside the `try`.  On loop
success: `success_count += 1`, `processed_rows = processed_rows`
(overwrite).  On a raised exception: only `failure_count += 1`; the
state's `processed_rows` field is not touched.  In both branches the
state is read with the zero default and then `set_state` is called. -/
def dynamoFetch {α : Type} (trace : List (Resp α)) (prior : Option JobState) :
    Option (RunR α) :=
  match dynamoLoop trace 0 [] 0 with
  | none => none
  | some out =>
    match out.exit with
    | .success _ =>
      let cs := getOrDefault prior
      some ⟨some { cs with
                    success_count := cs.success_count + 1,
                    processed_rows := out.processed },
            out.writes, out.calls, false⟩
    | .raised =>
      let cs := getOrDefault prior
      some ⟨some { cs with failure_count := cs.failure_count + 1 },
            out.writes, out.calls, false⟩

example : dynamoFetch [Resp.ok [5, 6] none] none =
    some ⟨some ⟨1, 0, 2⟩, [[5, 6]], 1, false⟩ := by decide

example : dynamoFetch [Resp.ok [5] (some 1), Resp.err] none =
    some ⟨some ⟨0, 1, 0⟩, [[5]], 2, false⟩ := by decide

/-- Run `DynamoDB.fetch` once per trace in the list, threading the
persisted state: the store left by one run is the prior state of the
next (same `self.id`, sequential runs, no interleaving). -/
def dynamoRunMany {α : Type} :
    List (List (Resp α)) → Option JobState → Option (Option JobState)
  | [], store => some store
  | t :: ts, store =>
    match dynamoFetch t store with
    | none => none
    | some r => dynamoRunMany ts r.finalStore

/-- The real `table.scan` pagination semantics over a table holding
`data`, starting at index `start` with `Limit = limit`: the response
trace `DynamoDB.fetch` receives.  A scan returns the next `limit`
items; `LastEvaluatedKey` is present exactly when the scan stopped
because it hit the limit (DynamoDB does not look ahead), and absent
when the end of the table was reached first.  `fuel` bounds the trace
length; `fuel > data.length - start` is always enough (each recursive
step advances `start` by `limit ≥ 1`). -/
def scanTraceF {α : Type} (data : List α) (limit : Nat) :
    Nat → Nat → List (Resp α)
  | 0, _ => []
  | fuel + 1, start =>
    let items := (data.drop start).take limit
    if 0 < limit ∧ items.length = limit then
      Resp.ok items (some (start + limit)) :: scanTraceF data limit fuel (start + limit)
    else
      [Resp.ok items none]

/-- The complete scan-response trace for a table holding `data`, from
the start of the table, with `Limit = limit`. -/
def scanTrace {α : Type} (data : List α) (limit : Nat) : List (Resp α) :=
  scanTraceF data limit (data.length + 1) 0

example : scanTrace [1, 2, 3] 2 =
    [Resp.ok [1, 2] (some 2), Resp.ok [3] none] := by decide

example : scanTrace [1, 2] 2 =
    [Resp.ok [1, 2] (some 2), Resp.ok [] none] := by decide

example : scanTrace ([] : List Nat) 2 = [Resp.ok [] none] := by decide

/-! ## SQLite / SQL Server: the `cursor.fetchmany` page loop

`SQLite.fetch` (sqlite.py lines 80–94) and `SQLServer.fetch`
(sql_server.py lines 84–92) run the same loop:
`rows = cursor.fetchmany(page_size)`; `if not rows: break`;
`self.output.save(rows)`; `processed_rows += len(rows)`.
`fetchmany` over the query's result list `rows` returns the next
`limit` rows.  `fuel` bounds the iteration count;
`fuel > rows.length` always suffices. -/

/-- The `fetchmany` page loop shared by `SQLite.fetch` and
`SQLServer.fetch`, over the remaining query results.  Returns the
final `processed_rows` accumulator and the sink writes, or `none` when
`fuel` ran out before the loop exited. -/
def fetchmanyLoop {α : Type} (limit : Nat) :
    Nat → List α → Nat → List (List α) → Option (Nat × List (List α))
  | 0, _, _, _ => none
  | fuel + 1, rows, p, w =>
    let page := rows.take limit
    if page.isEmpty then
      some (p, w)
    else
      fetchmanyLoop limit fuel (rows.drop limit) (p + page.length) (w ++ [page])

/-- Result of one `SQLite.fetch` / `SQLServer.fetch` call: persisted
state, sink writes, number of `connection.close()` calls, and whether
an exception escaped `fetch`. -/
structure SqlRunR (α : Type) where
  finalStore : Option JobState
  writes : List (List α)
  closes : Nat
  raised : Bool
deriving DecidableEq

/-- `SQLite.fetch` (sqlite.py lines 54–120).  `connectOk` models
whether the pre-`try` connection phase (`s3.download_file`,
`sqlite3.connect`) succeeds; when it raises, the exception propagates
out of `fetch` before the `try`/`finally` is entered: no state is read
or written and `connection.close()` never runs.  When it succeeds and
the query yields `rows`, the loop drains them (no failure is injected
here: this models a run whose backend operations succeed), then
`success_count += 1` and `processed_rows` is overwritten with the
accumulator; the `finally` closes the connection once. -/
def sqliteFetch {α : Type} (connectOk : Bool) (rows : List α) (limit : Nat)
    (prior : Option JobState) : Option (SqlRunR α) :=
  match connectOk with
  | false => some ⟨prior, [], 0, true⟩
  | true =>
    match fetchmanyLoop limit (rows.length + 1) rows 0 [] with
    | none => none
    | some (p, w) =>
      let cs := getOrDefault prior
      some ⟨some { cs with
                    success_count := cs.success_count + 1,
                    processed_rows := p },
            w, 1, false⟩

/-- `SQLServer.fetch` (sql_server.py lines 52–118).  Identical loop
shape to `SQLite.fetch`, except: `pyodbc.connect` is the pre-`try`
phase, `cursor.fetchmany()` is called with no size argument (pages of
`cursor.arraysize` rows, modelled by `limit`), and there is no
`finally` — the connection is never closed, so `closes = 0` on every
path. -/
def sqlServerFetch {α : Type} (connectOk : Bool) (rows : List α) (limit : Nat)
    (prior : Option JobState) : Option (SqlRunR α) :=
  match connectOk with
  | false => some ⟨prior, [], 0, true⟩
  | true =>
    match fetchmanyLoop limit (rows.length + 1) rows 0 [] with
    | none => none
    | some (p, w) =>
      let cs := getOrDefault prior
      some ⟨some { cs with
                    success_count := cs.success_count + 1,
                    processed_rows := p },
            w, 0, false⟩

example : sqliteFetch true [1, 2, 3] 2 none =
    some ⟨some ⟨1, 0, 3⟩, [[1, 2], [3]], 1, false⟩ := by decide

example : sqlServerFetch (α := Nat) false [1] 1 none =
    some ⟨none, [], 0, true⟩ := by decide

/-! ## MongoDB

`MongoDB.fetch` (mongodb.py lines 52–132).  `pymongo.MongoClient` is
constructed before the `try`; the loop's first iteration evaluates
`list(cursor.batch_size(100))`, which drains the whole cursor into one
batch (`batch_size` is a transport hint, not an iteration bound), so a
successful run performs at most one `self.output.save` call; the
second iteration sees an empty batch and breaks. -/

/-- The three run shapes of `MongoDB.fetch` once the client exists:
the whole collection is drained successfully; an exception fires
before any save (`count_documents`, `find`, or the first batch
listing); or the single save succeeds and a later operation raises. -/
inductive MongoStep (α : Type) where
  | success (docs : List α)
  | failBeforeWrite
  | failAfterWrite (docs : List α)
deriving DecidableEq

/-- Result of one `MongoDB.fetch` call: persisted state, sink writes,
number of `client.close()` calls, and whether an exception escaped. -/
structure MongoR (α : Type) where
  finalStore : Option JobState
  writes : List (List α)
  closes : Nat
  raised : Bool
deriving DecidableEq

/-- `MongoDB.fetch`.  `connectOk = false` models `MongoClient`
raising: that happens before the `try`/`finally`, so nothing is
persisted, `close()` never runs, and the exception propagates.
Otherwise the `finally` closes the client exactly once; the `except`
branch increments only `failure_count` (it does not touch
`processed_rows`), the success branch increments `success_count` and
overwrites `processed_rows` with the number of documents saved. -/
def mongodbFetch {α : Type} (connectOk : Bool) (step : MongoStep α)
    (prior : Option JobState) : MongoR α :=
  match connectOk with
  | false => ⟨prior, [], 0, true⟩
  | true =>
    let cs := getOrDefault prior
    match step with
    | .success docs =>
      ⟨some { cs with
               success_count := cs.success_count + 1,
               processed_rows := docs.length },
       if docs.isEmpty then [] else [docs], 1, false⟩
    | .failBeforeWrite =>
      ⟨some { cs with failure_count := cs.failure_count + 1 }, [], 1, false⟩
    | .failAfterWrite docs =>
      ⟨some { cs with failure_count := cs.failure_count + 1 }, [docs], 1, false⟩

example : mongodbFetch true (.success [7, 8]) (some ⟨1, 2, 9⟩) =
    ⟨some ⟨2, 2, 2⟩, [[7, 8]], 1, false⟩ := by decide

example : mongodbFetch true (.failAfterWrite [7]) (some ⟨1, 2, 9⟩) =
    ⟨some ⟨1, 3, 9⟩, [[7]], 1, false⟩ := by decide

/-! ## CosmosDB

`CosmosDB.fetch` (cosmosdb.py lines 49–125).  The loop per iteration:
`response = collection.query_items(...)`; `if not response: break`;
`self.output.save(response)`;
`processed_documents += len(response)`;
`continuation_token = response["_continuation_token"]` (a missing
token key raises and control jumps to `except`).  There is **no**
`finally` block and no `client.close()` anywhere in the method. -/

/-- One `query_items` response: a batch of documents plus the optional
continuation token, or a raised driver exception. -/
inductive CResp (α : Type) where
  | ok (docs : List α) (token : Option Nat)
  | err
deriving DecidableEq

/-- Result of one `CosmosDB.fetch` call.  `closes` counts
`client.close()` invocations (the method contains none). -/
structure CosmosR (α : Type) where
  finalStore : Option JobState
  writes : List (List α)
  closes : Nat
  raised : Bool
deriving DecidableEq

/-- The `while True` loop of `CosmosDB.fetch`, over a finite response
trace.  Returns `(success?, processed, writes)`; `none` when the trace
ran out before an exit. -/
def cosmosLoop {α : Type} :
    List (CResp α) → Nat → List (List α) → Option (Bool × Nat × List (List α))
  | [], _, _ => none
  | .err :: _, p, w => some (false, p, w)
  | .ok docs tok :: rest, p, w =>
    if docs.isEmpty then
      some (true, p, w)
    else
      let p' := p + docs.length
      let w' := w ++ [docs]
      match tok with
      | none => some (false, p', w')
      | some _ => cosmosLoop rest p' w'

/-- `CosmosDB.fetch`: loop, then the success branch
(`success_count += 1`, `processed_documents` overwritten) or the
`except` branch (`failure_count += 1` only).  No close on any path. -/
def cosmosFetch {α : Type} (trace : List (CResp α)) (prior : Option JobState) :
    Option (CosmosR α) :=
  match cosmosLoop trace 0 [] with
  | none => none
  | some (ok, p, w) =>
    let cs := getOrDefault prior
    match ok with
    | true =>
      some ⟨some { cs with
                    success_count := cs.success_count + 1,
                    processed_rows := p },
            w, 0, false⟩
    | false =>
      some ⟨some { cs with failure_count := cs.failure_count + 1 },
            w, 0, false⟩

example : cosmosFetch (α := Nat) [CResp.ok [] none] none =
    some ⟨some ⟨1, 0, 0⟩, [], 0, false⟩ := by decide

/-! ## HBase

`HBase.fetch` (hbase.py lines 51–114).  The loop
`for row_key, data in hbase_table.scan(row_start=..., row_stop=...,
batch_size=batch_size)` yields **individual rows** (`happybase`'s
`scan` returns an iterator of `(row_key, data)` pairs; `batch_size`
only sizes the Thrift transfers underneath).  Each iteration does
`rows = [(row_key, data)]`; `self.output.save(rows)`;
`processed_rows += 1` — one single-record write per scanned row. -/

/-- Result of one `HBase.fetch` call.  `closes` counts the `finally`
block's `connection.close()`. -/
structure HbaseR (α : Type) where
  finalStore : Option JobState
  writes : List (List α)
  closes : Nat
deriving DecidableEq

/-- The row loop of `HBase.fetch` over the rows the scan yields. -/
def hbaseLoop {α : Type} : List α → Nat → List (List α) → Nat × List (List α)
  | [], p, w => (p, w)
  | r :: rest, p, w => hbaseLoop rest (p + 1) (w ++ [[r]])

/-- `HBase.fetch` on a run whose scan yields `rows` and raises
nothing: the row loop, then `success_count += 1` and `processed_rows`
overwritten, then the `finally` close.  `batch_size` is threaded
through to the scan but does not shape the writes. -/
def hbaseFetch {α : Type} (rows : List α) (batch_size : Nat)
    (prior : Option JobState) : HbaseR α :=
  let (p, w) := hbaseLoop rows 0 []
  let cs := getOrDefault prior
  let _ := batch_size
  ⟨some { cs with
           success_count := cs.success_count + 1,
           processed_rows := p },
   w, 1⟩

example : hbaseFetch [10, 20] 7 none =
    ⟨some ⟨1, 0, 2⟩, [[10], [20]], 1⟩ := by decide

/-! ## Athena

`Athena.fetch` (athena.py lines 50–119).  After
`start_query_execution`, the poll loop repeats
`result = athena.get_query_execution(...)`;
`status = result["QueryExecution"]["Status"]["State"]`;
`if status in ["SUCCEEDED", "FAILED"]: break`.  After the break the
code runs `self.output.save(result["ResultSet"])` and
`success_count += 1` **whatever the status was**; only a raised
exception reaches the `except` branch (`failure_count += 1`).  The
state dictionary of this connector has only the two counters. -/

/-- Athena query execution states. -/
inductive AStatus where
  | queued
  | running
  | succeeded
  | failed
  | cancelled
deriving DecidableEq

/-- One `get_query_execution` response: the state plus the value the
code later reads as `result["ResultSet"]` (`none` models the key being
absent, in which case the subscript raises). -/
structure AResp (α : Type) where
  status : AStatus
  resultSet : Option α
deriving DecidableEq

/-- Athena's per-job state: `{"success_count": 0, "failure_count": 0}`. -/
structure AthenaState where
  success_count : Nat
  failure_count : Nat
deriving DecidableEq

/-- The poll loop of `Athena.fetch`: walk the responses until one has
status `SUCCEEDED` or `FAILED`; return that final response. `none`
when the trace ends without either status (the code would poll
forever). -/
def athenaPoll {α : Type} : List (AResp α) → Option (AResp α)
  | [] => none
  | r :: rest =>
    if r.status = .succeeded ∨ r.status = .failed then some r
    else athenaPoll rest

/-- Result of one `Athena.fetch` call: persisted state, sink writes,
and whether an exception escaped (none can: everything fallible is in
the `try`). -/
structure AthenaR (α : Type) where
  finalStore : Option AthenaState
  writes : List α
  raised : Bool
deriving DecidableEq

/-- `Athena.fetch`: `startOk` models `start_query_execution`; then the
poll loop; then `self.output.save(result["ResultSet"])` on the final
polled response and `success_count += 1` — regardless of whether the
final status was `SUCCEEDED` or `FAILED`.  A missing `ResultSet` key
raises, landing in the `except` branch (`failure_count += 1`). -/
def athenaFetch {α : Type} (startOk : Bool) (responses : List (AResp α))
    (prior : Option AthenaState) : Option (AthenaR α) :=
  let cs := prior.getD ⟨0, 0⟩
  match startOk with
  | false =>
    some ⟨some { cs with failure_count := cs.failure_count + 1 }, [], false⟩
  | true =>
    match athenaPoll responses with
    | none => none
    | some r =>
      match r.resultSet with
      | some v =>
        some ⟨some { cs with success_count := cs.success_count + 1 }, [v], false⟩
      | none =>
        some ⟨some { cs with failure_count := cs.failure_count + 1 }, [], false⟩

example : athenaFetch true [⟨.running, none⟩, ⟨.failed, some 42⟩] none =
    some ⟨some ⟨1, 0⟩, [42], false⟩ := by decide

/-- Number of completed runs a persisted state accounts for:
`success_count + failure_count` (zero default when absent). -/
def storeCounts (s : Option JobState) : Nat :=
  (getOrDefault s).success_count + (getOrDefault s).failure_count

/-! ## Helper lemmas -/

/-- Every complete `DynamoDB.fetch` run increments exactly one of the
two counters by exactly 1: the run count grows by one. -/
theorem dynamoFetch_counts {α : Type} (t : List (Resp α)) (s : Option JobState)
    (r : RunR α) (h : dynamoFetch t s = some r) :
    storeCounts r.finalStore = storeCounts s + 1 := by
  unfold dynamoFetch at h
  cases hl : dynamoLoop t 0 [] 0 with
  | none => rw [hl] at h; exact absurd h (by simp)
  | some out =>
    rw [hl] at h
    obtain ⟨ex, pp, ww, cc⟩ := out
    cases ex with
    | success k =>
      simp only [Option.some.injEq] at h
      subst h
      simp only [storeCounts, getOrDefault]
      simp
      omega
    | raised =>
      simp only [Option.some.injEq] at h
      subst h
      simp only [storeCounts, getOrDefault]
      simp
      omega

/-- Sequential runs add their count one by one. -/
theorem dynamoRunMany_counts {α : Type} (traces : List (List (Resp α))) :
    ∀ (s : Option JobState) (s' : Option JobState),
      dynamoRunMany traces s = some s' →
      storeCounts s' = storeCounts s + traces.length := by
  induction traces with
  | nil =>
    intro s s' h
    simp only [dynamoRunMany, Option.some.injEq] at h
    subst h
    simp
  | cons t ts ih =>
    intro s s' h
    simp only [dynamoRunMany] at h
    cases hr : dynamoFetch t s with
    | none => rw [hr] at h; exact absurd h (by simp)
    | some r =>
      rw [hr] at h
      have h1 := dynamoFetch_counts t s r hr
      have h2 := ih r.finalStore s' h
      rw [h2, h1, List.length_cons]
      omega

/-- The `fetchmany` loop with enough fuel drains all the rows: the
accumulator ends at `p + rows.length` and the pages handed to the sink
concatenate back to exactly the rows, in order. -/
theorem fetchmanyLoop_spec {α : Type} (limit : Nat) (hl : 0 < limit) :
    ∀ (fuel : Nat) (rows : List α) (p : Nat) (w : List (List α)),
      rows.length < fuel →
      ∃ w', fetchmanyLoop limit fuel rows p w = some (p + rows.length, w ++ w') ∧
        w'.flatten = rows := by
  intro fuel
  induction fuel with
  | zero => intro rows p w h; omega
  | succ fuel ih =>
    intro rows p w h
    cases he : (rows.take limit).isEmpty with
    | true =>
      have hrows : rows = [] := by
        rw [List.isEmpty_iff] at he
        rcases List.take_eq_nil_iff.mp he with h0 | h0
        · omega
        · exact h0
      subst hrows
      exact ⟨[], by simp [fetchmanyLoop], by simp⟩
    | false =>
      have hne : rows ≠ [] := by
        intro h0; subst h0; simp at he
      have hlen : 0 < rows.length := List.length_pos.mpr hne
      have hdrop : (rows.drop limit).length < fuel := by
        rw [List.length_drop]; omega
      obtain ⟨w', hw', hflat⟩ :=
        ih (rows.drop limit) (p + (rows.take limit).length) (w ++ [rows.take limit]) hdrop
      refine ⟨rows.take limit :: w', ?_, ?_⟩
      · show (if (rows.take limit).isEmpty then some (p, w)
          else fetchmanyLoop limit fuel (rows.drop limit)
            (p + (rows.take limit).length) (w ++ [rows.take limit])) =
          some (p + rows.length, w ++ rows.take limit :: w')
        rw [he, if_neg (by simp), hw']
        have harith : p + (rows.take limit).length + (rows.drop limit).length =
            p + rows.length := by
          rw [List.length_take, List.length_drop]; omega
        rw [harith]
        simp
      · simp only [List.flatten_cons, hflat]
        exact List.take_append_drop limit rows

/-- The HBase row loop: one single-record write and one count per row. -/
theorem hbaseLoop_spec {α : Type} :
    ∀ (rows : List α) (p : Nat) (w : List (List α)),
      hbaseLoop rows p w = (p + rows.length, w ++ rows.map (fun r => [r])) := by
  intro rows
  induction rows with
  | nil => intro p w; simp [hbaseLoop]
  | cons r rest ih =>
    intro p w
    simp only [hbaseLoop, ih, List.map_cons, List.length_cons, Prod.mk.injEq]
    refine ⟨by omega, by simp⟩

/-- Unfolding equation for `scanTraceF` at positive fuel. -/
theorem scanTraceF_succ {α : Type} (data : List α) (limit fuel start : Nat) :
    scanTraceF data limit (fuel + 1) start =
      if 0 < limit ∧ ((data.drop start).take limit).length = limit then
        Resp.ok ((data.drop start).take limit) (some (start + limit)) ::
          scanTraceF data limit fuel (start + limit)
      else
        [Resp.ok ((data.drop start).take limit) none] := rfl

/-- Unfolding equation for `dynamoLoop` on a successful response. -/
theorem dynamoLoop_ok_cons {α : Type} (items : List α) (k : Option Nat)
    (rest : List (Resp α)) (p : Nat) (w : List (List α)) (c : Nat) :
    dynamoLoop (Resp.ok items k :: rest) p w c =
      if items.isEmpty then
        some ⟨.success k, p, w, c + 1⟩
      else
        match k with
        | none => some ⟨.success none, p + items.length, w ++ [items], c + 1⟩
        | some _ => dynamoLoop rest (p + items.length) (w ++ [items]) (c + 1) := rfl

/-- Driving `DynamoDB.fetch`'s loop with the faithful scan-response
trace of a finite table: with enough fuel in the trace generator the
loop exits via `break`, the page it stops on carries no
`LastEvaluatedKey` (the exhaustion signal), every item between `start`
and the end of the table is counted, and the loop issued at most
`fuel` scans. -/
theorem dynamoLoop_scanTraceF {α : Type} (data : List α) (limit : Nat)
    (hl : 0 < limit) :
    ∀ (fuel start p : Nat) (w : List (List α)) (c : Nat),
      data.length - start < fuel →
      ∃ out, dynamoLoop (scanTraceF data limit fuel start) p w c = some out ∧
        out.exit = .success none ∧
        out.processed = p + (data.drop start).length ∧
        out.calls ≤ c + fuel := by
  intro fuel
  induction fuel with
  | zero => intro start p w c h; omega
  | succ fuel ih =>
    intro start p w c h
    by_cases hc : 0 < limit ∧ ((data.drop start).take limit).length = limit
    · have hlim : limit ≤ data.length - start := by
        have h2 := hc.2
        rw [List.length_take, List.length_drop] at h2
        omega
      have hne : ((data.drop start).take limit).isEmpty = false := by
        cases hq : ((data.drop start).take limit).isEmpty with
        | false => rfl
        | true =>
          rw [List.isEmpty_iff] at hq
          rw [hq] at hc
          simp at hc
          omega
      have hrec : data.length - (start + limit) < fuel := by omega
      obtain ⟨out, hout, hexit, hproc, hcalls⟩ :=
        ih (start + limit) (p + ((data.drop start).take limit).length)
          (w ++ [(data.drop start).take limit]) (c + 1) hrec
      refine ⟨out, ?_, hexit, ?_, by omega⟩
      · rw [scanTraceF_succ, if_pos hc, dynamoLoop_ok_cons, hne,
          if_neg (by simp : ¬(false = true))]
        exact hout
      · rw [hproc, hc.2]
        rw [List.length_drop, List.length_drop]
        omega
    · have htr : scanTraceF data limit (fuel + 1) start =
          [Resp.ok ((data.drop start).take limit) none] := by
        rw [scanTraceF_succ, if_neg hc]
      cases he : ((data.drop start).take limit).isEmpty with
      | true =>
        have hnil : data.drop start = [] := by
          rw [List.isEmpty_iff] at he
          rcases List.take_eq_nil_iff.mp he with h0 | h0
          · omega
          · exact h0
        refine ⟨⟨.success none, p, w, c + 1⟩, ?_, rfl, by simp [hnil],
          by show c + 1 ≤ c + (fuel + 1); omega⟩
        rw [htr, dynamoLoop_ok_cons, he, if_pos rfl]
      | false =>
        have hlen : ((data.drop start).take limit).length =
            (data.drop start).length := by
          have hne2 : ((data.drop start).take limit).length ≠ limit := by
            intro h0; exact hc ⟨hl, h0⟩
          rw [List.length_take] at hne2 ⊢
          omega
        refine ⟨⟨.success none, p + ((data.drop start).take limit).length,
          w ++ [(data.drop start).take limit], c + 1⟩, ?_, rfl,
          by show p + ((data.drop start).take limit).length =
            p + (data.drop start).length; rw [hlen],
          by show c + 1 ≤ c + (fuel + 1); omega⟩
        rw [htr, dynamoLoop_ok_cons, he, if_neg (by simp : ¬(false = true))]

/-! ## Claim theorems -/

/-- **C1, counterexample.** `DynamoDB.fetch` fails on the third scan
after two successful pages of 100 records.  The persisted state is
`⟨0, 1, 0⟩`: `failure_count` is incremented, but `processed_rows` is
`0`, not the partial count `200` the claim requires — the failure
branch (dynamodb.py lines 107–114) never writes `processed_rows`. -/
theorem C1_counterexample :
    dynamoFetch [Resp.ok (List.replicate 100 0) (some 100),
        Resp.ok (List.replicate 100 0) (some 200), Resp.err] none =
      some ⟨some ⟨0, 1, 0⟩,
        [List.replicate 100 0, List.replicate 100 0], 3, false⟩ ∧
    some (⟨some ⟨0, 1, 0⟩, [List.replicate 100 0, List.replicate 100 0],
        3, false⟩ : RunR Nat) ≠
      some (⟨some ⟨0, 1, 200⟩, [List.replicate 100 0, List.replicate 100 0],
        3, false⟩ : RunR Nat) :=
  ⟨rfl, by decide⟩

/-- **C1, amended.** When a page fetch fails after two pages of 100
records were sunk, the persisted state has `failure_count`
incremented by 1 and `success_count` unchanged, but `processed_rows`
is left at its previously persisted value (zero default) — the
partial in-run count is discarded, not persisted. -/
theorem C1_failure_keeps_prior_processed (prior : Option JobState)
    (k1 k2 x : Nat) :
    dynamoFetch [Resp.ok (List.replicate 100 x) (some k1),
        Resp.ok (List.replicate 100 x) (some k2), Resp.err] prior =
      some ⟨some ⟨(getOrDefault prior).success_count,
          (getOrDefault prior).failure_count + 1,
          (getOrDefault prior).processed_rows⟩,
        [List.replicate 100 x, List.replicate 100 x], 3, false⟩ := rfl

/-- **C2, counterexample.** `SQLServer.fetch` with a failing
connection phase: the result is `⟨none, [], 0, true⟩` — nothing was
persisted (`none`, so no `failure_count` increment) and the exception
escaped `fetch` (`raised = true`), contradicting the claim that the
run records `failureCount += 1`, persists, and returns without
propagating.  `pyodbc.connect` sits before the `try`
(sql_server.py line 76). -/
theorem C2_counterexample :
    sqlServerFetch (α := Nat) false [5, 6] 1 none =
      some ⟨none, [], 0, true⟩ ∧
    some (⟨none, [], 0, true⟩ : SqlRunR Nat) ≠
      some (⟨some ⟨0, 1, 0⟩, [], 0, false⟩ : SqlRunR Nat) :=
  ⟨rfl, by decide⟩

/-- **C2, amended.** When establishing the backend connection fails,
the exception propagates to the caller before the `try` block is
entered: no JobState is read or written (no `failure_count`
increment, nothing persisted), no sink write occurs, and the page
loop is never entered.  Holds for both cited connectors. -/
theorem C2_connect_failure_propagates (rows rows2 : List Nat)
    (limit limit2 : Nat) (prior prior2 : Option JobState) :
    sqlServerFetch false rows limit prior = some ⟨prior, [], 0, true⟩ ∧
    sqliteFetch false rows2 limit2 prior2 = some ⟨prior2, [], 0, true⟩ :=
  ⟨rfl, rfl⟩

/-- **C3, counterexample.** A successful `CosmosDB.fetch` run closes
the client zero times, not exactly once: cosmosdb.py has no `finally`
and never calls `close` on any path. -/
theorem C3_counterexample :
    cosmosFetch (α := Nat) [CResp.ok [3] (some 1), CResp.ok [] none] none =
      some ⟨some ⟨1, 0, 1⟩, [[3]], 0, false⟩ ∧
    some (⟨some ⟨1, 0, 1⟩, [[3]], 0, false⟩ : CosmosR Nat) ≠
      some (⟨some ⟨1, 0, 1⟩, [[3]], 1, false⟩ : CosmosR Nat) :=
  ⟨rfl, by decide⟩

/-- **C3, amended.** Close behaviour is per connector, not universal:
`MongoDB.fetch` invokes `client.close()` exactly once on every exit
path reached after the client construction succeeded, and zero times
when the construction itself raises (it precedes the
`try`/`finally`); `CosmosDB.fetch` never invokes a close on any
path. -/
theorem C3_close_accounting :
    (∀ (step : MongoStep Nat) (prior : Option JobState),
      (mongodbFetch true step prior).closes = 1) ∧
    (∀ (step : MongoStep Nat) (prior : Option JobState),
      (mongodbFetch false step prior).closes = 0) ∧
    (∀ (trace : List (CResp Nat)) (prior : Option JobState) (r : CosmosR Nat),
      cosmosFetch trace prior = some r → r.closes = 0) := by
  refine ⟨?_, ?_, ?_⟩
  · intro step prior
    cases step <;> rfl
  · intro step prior
    rfl
  · intro trace prior r h
    unfold cosmosFetch at h
    cases hl : cosmosLoop trace 0 [] with
    | none => rw [hl] at h; exact absurd h (by simp)
    | some x =>
      rw [hl] at h
      obtain ⟨ok, p, w⟩ := x
      cases ok with
      | true =>
        simp only [Option.some.injEq] at h
        subst h
        rfl
      | false =>
        simp only [Option.some.injEq] at h
        subst h
        rfl

/-- Witness for C3: a concrete successful CosmosDB run, with the
theorem applied to it to conclude `closes = 0`. -/
theorem C3_witness :
    cosmosFetch (α := Nat) [CResp.ok [] none] none =
      some ⟨some ⟨1, 0, 0⟩, [], 0, false⟩ ∧
    (⟨some ⟨1, 0, 0⟩, [], 0, false⟩ : CosmosR Nat).closes = 0 :=
  ⟨rfl, C3_close_accounting.2.2 [CResp.ok [] none] none
    ⟨some ⟨1, 0, 0⟩, [], 0, false⟩ rfl⟩

/-- **C4, counterexample.** A scan response with zero items but a
present `LastEvaluatedKey` (a non-exhausted cursor): the loop breaks
immediately (`if not items: break`, dynamodb.py line 77) — exactly one
scan call is issued, the second response is never requested, and the
run even counts as a success.  The claim requires a second fetch
(calls ≥ 2, the record `7` sunk). -/
theorem C4_counterexample :
    dynamoFetch [Resp.ok [] (some 0), Resp.ok [7] none] none =
      some ⟨some ⟨1, 0, 0⟩, [], 1, false⟩ ∧
    some (⟨some ⟨1, 0, 0⟩, [], 1, false⟩ : RunR Nat) ≠
      some (⟨some ⟨1, 0, 1⟩, [[7]], 2, false⟩ : RunR Nat) :=
  ⟨rfl, by decide⟩

/-- **C4, amended.** An empty page terminates the fetch loop
immediately and is treated as successful exhaustion, regardless of
whether the response carries a continuation key: no further page
fetch is issued (exhaustion **is** inferred from the empty page). -/
theorem C4_empty_page_breaks (k : Option Nat) (rest : List (Resp Nat))
    (p : Nat) (w : List (List Nat)) (c : Nat) :
    dynamoLoop (Resp.ok [] k :: rest) p w c =
      some ⟨.success k, p, w, c + 1⟩ := rfl

/-- **C5, counterexample.** `HBase.fetch` with `batch_size = 2` over
five records produces **five** single-record sink writes, not the
three batched writes `[[A,B],[C,D],[E]]` the claim requires (the scan
yields rows one at a time and each is saved alone, hbase.py lines
77–80).  `processed_rows = 5` and the success increment do hold. -/
theorem C5_counterexample :
    hbaseFetch [0, 1, 2, 3, 4] 2 none =
      ⟨some ⟨1, 0, 5⟩, [[0], [1], [2], [3], [4]], 1⟩ ∧
    ([[0], [1], [2], [3], [4]] : List (List Nat)) ≠ [[0, 1], [2, 3], [4]] :=
  ⟨rfl, by decide⟩

/-- **C5, amended.** Each scanned row is handed to the sink as its own
single-record write, whatever `batch_size` is: over records
`[A,B,C,D,E]` there are five writes `[A],[B],[C],[D],[E]`; the final
state still has `processed_rows` equal to the record count and
`success_count` incremented by 1. -/
theorem C5_per_row_writes (rows : List Nat) (bs : Nat)
    (prior : Option JobState) :
    hbaseFetch rows bs prior =
      ⟨some ⟨(getOrDefault prior).success_count + 1,
          (getOrDefault prior).failure_count, rows.length⟩,
        rows.map (fun r => [r]), 1⟩ := by
  unfold hbaseFetch
  rw [hbaseLoop_spec]
  simp

/-- **C6 (confirmed).** After `N` sequential completed runs of
`DynamoDB.fetch` for one job identifier starting from no prior state,
the persisted state satisfies
`success_count + failure_count = N`: each completed run increments
exactly one of the two counters by exactly 1. -/
theorem C6_accounting_invariant (traces : List (List (Resp Nat)))
    (s' : Option JobState) (h : dynamoRunMany traces none = some s') :
    (getOrDefault s').success_count + (getOrDefault s').failure_count =
      traces.length := by
  have h2 := dynamoRunMany_counts traces none s' h
  simp only [storeCounts, getOrDefault] at h2 ⊢
  simpa using h2

/-- Witness for C6: two completed runs (one success, one failure) end
with `success_count + failure_count = 2`. -/
theorem C6_witness :
    dynamoRunMany [[Resp.ok ([] : List Nat) none], [Resp.err]] none =
      some (some ⟨1, 1, 0⟩) ∧
    (getOrDefault (some ⟨1, 1, 0⟩)).success_count +
      (getOrDefault (some ⟨1, 1, 0⟩)).failure_count = 2 :=
  ⟨rfl, C6_accounting_invariant [[Resp.ok [] none], [Resp.err]]
    (some (⟨1, 1, 0⟩ : JobState)) rfl⟩

/-- **C7 (confirmed).** Over a finite table, `DynamoDB.fetch`'s loop
driven by the faithful scan semantics terminates: it exits via
`break` after at most `data.length + 1` scans, every record is
counted, and the page it stops on carries the exhaustion signal
(`LastEvaluatedKey` absent: terminal key `none`). -/
theorem C7_exhaustion_termination (data : List Nat) (limit : Nat)
    (hl : 0 < limit) :
    ∃ out, dynamoLoop (scanTrace data limit) 0 [] 0 = some out ∧
      out.exit = .success none ∧
      out.processed = data.length ∧
      out.calls ≤ data.length + 1 := by
  obtain ⟨out, h1, h2, h3, h4⟩ :=
    dynamoLoop_scanTraceF data limit hl (data.length + 1) 0 0 [] 0 (by omega)
  exact ⟨out, h1, h2, by simpa using h3, by omega⟩

/-- Witness for C7 at a five-record table scanned with `Limit = 2`. -/
theorem C7_witness :
    (0 : Nat) < 2 ∧
    ∃ out, dynamoLoop (scanTrace [10, 20, 30, 40, 50] 2) 0 [] 0 = some out ∧
      out.exit = .success none ∧
      out.processed = 5 ∧
      out.calls ≤ 6 :=
  ⟨by decide, C7_exhaustion_termination [10, 20, 30, 40, 50] 2 (by decide)⟩

/-- **C8 (confirmed).** On a run that completes without fatal error,
`processed_rows` is overwritten with exactly the number of records
handed to the sink during that run — whatever the prior state held —
and the sink writes concatenate back to the fetched rows.  Shown for
`SQLite.fetch` (arbitrary rows, any positive page size) and
`MongoDB.fetch` (single-batch drain). -/
theorem C8_processed_overwrite (rows docs : List Nat) (limit : Nat)
    (prior prior2 : Option JobState) (r : SqlRunR Nat) (hl : 0 < limit)
    (hr : sqliteFetch true rows limit prior = some r) :
    (r.finalStore = some ⟨(getOrDefault prior).success_count + 1,
        (getOrDefault prior).failure_count, r.writes.flatten.length⟩ ∧
      r.writes.flatten = rows) ∧
    (mongodbFetch true (.success docs) prior2).finalStore =
      some ⟨(getOrDefault prior2).success_count + 1,
        (getOrDefault prior2).failure_count,
        (mongodbFetch true (.success docs) prior2).writes.flatten.length⟩ := by
  constructor
  · obtain ⟨w', hw', hflat⟩ :=
      fetchmanyLoop_spec limit hl (rows.length + 1) rows 0 [] (by omega)
    unfold sqliteFetch at hr
    rw [hw'] at hr
    simp only [Option.some.injEq] at hr
    subst hr
    refine ⟨?_, by simpa using hflat⟩
    simp [hflat]
  · cases docs with
    | nil => rfl
    | cons d ds => simp [mongodbFetch, getOrDefault]

/-- Witness for C8: a concrete SQLite run over `[1,2,3]` with page
size 2 and a nonzero prior state, plus a concrete MongoDB run. -/
theorem C8_witness :
    (0 : Nat) < 2 ∧
    sqliteFetch true [1, 2, 3] 2 (some ⟨4, 5, 6⟩) =
      some ⟨some ⟨5, 5, 3⟩, [[1, 2], [3]], 1, false⟩ ∧
    (((⟨some ⟨5, 5, 3⟩, [[1, 2], [3]], 1, false⟩ : SqlRunR Nat).finalStore =
        some ⟨5, 5,
          (⟨some ⟨5, 5, 3⟩, [[1, 2], [3]], 1, false⟩ :
            SqlRunR Nat).writes.flatten.length⟩ ∧
      (⟨some ⟨5, 5, 3⟩, [[1, 2], [3]], 1, false⟩ :
        SqlRunR Nat).writes.flatten = [1, 2, 3]) ∧
    (mongodbFetch true (.success [7, 8]) none).finalStore =
      some ⟨(getOrDefault none).success_count + 1,
        (getOrDefault none).failure_count,
        (mongodbFetch true (.success [7, 8]) none).writes.flatten.length⟩) :=
  ⟨by decide, rfl,
    C8_processed_overwrite [1, 2, 3] [7, 8] 2 (some ⟨4, 5, 6⟩) none
      ⟨some ⟨5, 5, 3⟩, [[1, 2], [3]], 1, false⟩ (by decide) rfl⟩

/-- **C9 (confirmed).** Every `DynamoDB.fetch` run that exits through
the `except` branch persists a state whose `processed_rows` (and
`success_count`) equal the prior persisted values (zero defaults if
absent): the failure branch updates only `failure_count` and never
writes the partial in-run count.  The `except` branches of
mongodb.py (121–128) and sqlite.py (107–116) are textually the same
update. -/
theorem C9_failure_branch_frame (trace : List (Resp Nat))
    (prior : Option JobState) (out : LoopOut Nat)
    (h1 : dynamoLoop trace 0 [] 0 = some out)
    (h2 : out.exit = .raised) :
    dynamoFetch trace prior =
      some ⟨some ⟨(getOrDefault prior).success_count,
          (getOrDefault prior).failure_count + 1,
          (getOrDefault prior).processed_rows⟩,
        out.writes, out.calls, false⟩ := by
  obtain ⟨ex, pp, ww, cc⟩ := out
  have h2' : ex = .raised := h2
  subst h2'
  unfold dynamoFetch
  rw [h1]

/-- Witness for C9: a run whose first scan raises, against prior state
`⟨2, 3, 7⟩`; the persisted state is `⟨2, 4, 7⟩`. -/
theorem C9_witness :
    dynamoLoop [Resp.err] 0 ([] : List (List Nat)) 0 =
      some ⟨.raised, 0, [], 1⟩ ∧
    dynamoFetch (α := Nat) [Resp.err] (some ⟨2, 3, 7⟩) =
      some ⟨some ⟨2, 4, 7⟩, [], 1, false⟩ :=
  ⟨rfl, C9_failure_branch_frame [Resp.err] (some ⟨2, 3, 7⟩)
    ⟨.raised, 0, [], 1⟩ rfl rfl⟩

/-- **C10 (confirmed).** When `Athena.fetch`'s poll loop stops on a
response with state `FAILED` and the saved `ResultSet` key is
present, the run writes that last polled result to the sink and
increments `success_count`, leaving `failure_count` unchanged: a
backend-reported query failure is recorded as a successful run
(athena.py lines 80–99). -/
theorem C10_failed_status_success (responses : List (AResp Nat))
    (prior : Option AthenaState) (r : AResp Nat) (v : Nat)
    (h1 : athenaPoll responses = some r)
    (h2 : r.status = .failed)
    (h3 : r.resultSet = some v) :
    athenaFetch true responses prior =
      some ⟨some ⟨(prior.getD ⟨0, 0⟩).success_count + 1,
          (prior.getD ⟨0, 0⟩).failure_count⟩, [v], false⟩ := by
  obtain ⟨st, rsv⟩ := r
  have h3' : rsv = some v := h3
  subst h3'
  unfold athenaFetch
  rw [h1]

/-- Witness for C10: one `RUNNING` poll then a `FAILED` poll carrying
a result set; the run saves it and counts a success on top of prior
state `⟨3, 4⟩`. -/
theorem C10_witness :
    athenaPoll [⟨.running, none⟩, (⟨.failed, some 42⟩ : AResp Nat)] =
      some ⟨.failed, some 42⟩ ∧
    athenaFetch true [⟨.running, none⟩, (⟨.failed, some 42⟩ : AResp Nat)]
        (some ⟨3, 4⟩) =
      some ⟨some ⟨4, 4⟩, [42], false⟩ :=
  ⟨rfl, C10_failed_status_success [⟨.running, none⟩, ⟨.failed, some 42⟩]
    (some ⟨3, 4⟩) ⟨.failed, some 42⟩ 42 rfl rfl rfl⟩
